import Mathlib

/-! hooklytics: event-ingestion server

A shallow embedding of `server/types/types.go` and `server/main.go`.

* Go values that can be `nil` are `Option`s; a Go `error` is an `Error` carrying the text that
  `err.Error()` yields.
* A Go `int` is a 64-bit two's-complement integer: arithmetic is done in `Int` and wrapped with
  `wrapInt`.
* An indexing expression that panics in Go yields `none`.
* Handlers are state-passing functions over a `World`; every call that leaves the process or the
  handler (key-set fetch, token parse, store operations, body parsing, `c.Next()`) is appended to
  `World.calls`, and the third-party functions themselves are fields of `Env`.
-/

namespace Hooklytics

/-! ## `types/types.go` -/

/-- Go's `int` on the 64-bit targets the server is built for. -/
def intBits : Nat := 64

/-- Smallest value of a Go `int`. -/
def minInt : Int := -(2 ^ (intBits - 1))

/-- Largest value of a Go `int`. -/
def maxInt : Int := 2 ^ (intBits - 1) - 1

/-- Two's-complement wrap-around of an integer result into the range of a Go `int`. -/
def wrapInt (x : Int) : Int := (x + 2 ^ (intBits - 1)) % 2 ^ intBits - 2 ^ (intBits - 1)

/-- `type HookType int`. -/
abbrev HookType := Int

/-- `TRACK_EVENT HookType = iota + 1`. -/
def TRACK_EVENT : HookType := 0 + 1

/-- Second constant of the `iota + 1` block. -/
def TRACK_ELEMENT_EVENT : HookType := 1 + 1

/-- Third constant of the `iota + 1` block. -/
def TRACK_DURATION : HookType := 2 + 1

/-- Fourth constant of the `iota + 1` block. -/
def TRACK_CLICKS : HookType := 3 + 1

/-- Fifth constant of the `iota + 1` block. -/
def TRACK_VISIBILITY : HookType := 4 + 1

/-- The array literal `[...]string{...}` indexed by `HookType.String`. -/
def hookTypeNames : List String :=
  ["track_event", "track_element_event", "track_duration", "track_clicks", "track_visibility"]

/-- Go array indexing `a[i]` with an `int` index: `none` stands for the run-time panic
"index out of range". -/
def index {α : Type} (a : List α) (i : Int) : Option α :=
  if 0 ≤ i ∧ i < a.length then a.get? i.toNat else none

/-- `func (ts HookType) String() string`: the lookup `[...]string{...}[ts-1]`. -/
def HookType.String (ts : HookType) : Option String :=
  index hookTypeNames (wrapInt (ts - 1))

/-- A Go struct tag, already split into its `key:"value"` pairs in the order written. -/
abbrev StructTag := List (String × String)

/-- `reflect.StructTag.Get`: the value of the first pair with the given key, `""` when the key
does not occur. -/
def StructTag.Get (tag : StructTag) (key : String) : String :=
  match tag.find? (fun kv => kv.1 == key) with
  | some kv => kv.2
  | none => ""

/-- The fields of `type Event struct`, in declaration order. -/
inductive EventField where
  | UserId
  | WebsiteId
  | HookType
  | EventType
  | DefaultMetadata
  | CoreMetadata
  | ElementMetadata
  | Timestamp
  deriving DecidableEq, Repr

/-- All fields of `Event`, in declaration order. -/
def EventField.all : List EventField :=
  [.UserId, .WebsiteId, .HookType, .EventType, .DefaultMetadata, .CoreMetadata,
   .ElementMetadata, .Timestamp]

/-- The Go identifier of each field. -/
def EventField.goName : EventField → String
  | .UserId => "UserId"
  | .WebsiteId => "WebsiteId"
  | .HookType => "HookType"
  | .EventType => "EventType"
  | .DefaultMetadata => "DefaultMetadata"
  | .CoreMetadata => "CoreMetadata"
  | .ElementMetadata => "ElementMetadata"
  | .Timestamp => "Timestamp"

/-- The struct tag written after each field of `Event` (types.go lines 22-32), verbatim. -/
def EventField.tag : EventField → StructTag
  | .UserId => [("json", "user_id"), ("validate", "required")]
  | .WebsiteId => [("json", "website_id"), ("validate", "required")]
  | .HookType => [("json", "hook_type"), ("valdate", "required")]
  | .EventType => [("json", "event_type"), ("validate", "required")]
  | .DefaultMetadata => [("json", "default_Mmetadata"), ("validate", "required")]
  | .CoreMetadata => [("json", "core_metadata"), ("validate", "required")]
  | .ElementMetadata => [("json", "element_metadata")]
  | .Timestamp => [("json", "timestamp")]

/-- Split a tag value at its commas. -/
def splitComma : List Char → List (List Char)
  | [] => [[]]
  | c :: cs =>
    match splitComma cs with
    | [] => [[c]]
    | first :: more => if c = ',' then [] :: first :: more else (c :: first) :: more

/-- The comma-separated items of a tag value. -/
def tagItems (value : String) : List String :=
  (splitComma value.toList).map String.mk

/-- The key `encoding/json` uses for a field: the first item of its `json` tag, and the Go
identifier when that item is empty. -/
def EventField.jsonKey (f : EventField) : String :=
  match tagItems (f.tag.Get "json") with
  | [] => f.goName
  | name :: _ => if name = "" then f.goName else name

/-- The rules a struct validator reads for a field: the items of its `validate` tag
(no rule when the tag has no `validate` key). -/
def EventField.rules (f : EventField) : List String :=
  if f.tag.Get "validate" = "" then [] else tagItems (f.tag.Get "validate")

/-- A decoded JSON value, as stored in a `map[string]any`; a number keeps its literal text. -/
inductive JsonValue where
  | null
  | bool (b : Bool)
  | number (literal : String)
  | string (s : String)
  | array (items : List JsonValue)
  | object (members : List (String × JsonValue))

/-- `type ElementMetadata struct`. -/
structure ElementMetadata where
  ElementRef : String
  ElementId : String
  ElementSelector : String
  ElementPath : String
  deriving DecidableEq, Repr

/-- `type Event struct`; a `map[string]any` field is `none` when the map is nil. -/
structure Event where
  UserId : String
  WebsiteId : String
  HookType : String
  EventType : String
  DefaultMetadata : Option (List (String × JsonValue))
  CoreMetadata : Option (List (String × JsonValue))
  ElementMetadata : ElementMetadata
  Timestamp : Int

/-- Whether a field of an event holds the zero value of its type (empty string, nil map,
all-empty struct, 0), which is what the `required` rule tests. -/
def Event.isZero (e : Event) : EventField → Bool
  | .UserId => e.UserId == ""
  | .WebsiteId => e.WebsiteId == ""
  | .HookType => e.HookType == ""
  | .EventType => e.EventType == ""
  | .DefaultMetadata => e.DefaultMetadata.isNone
  | .CoreMetadata => e.CoreMetadata.isNone
  | .ElementMetadata => e.ElementMetadata == ⟨"", "", "", ""⟩
  | .Timestamp => e.Timestamp == 0

/-- One violation reported by struct validation: the field and the rule it broke. -/
structure FieldError where
  field : String
  rule : String
  deriving DecidableEq, Repr

/-- Struct validation of an event under the tags declared on `Event`: every field whose rules
contain `required` and whose value is zero yields a violation naming it. -/
def Event.validate (e : Event) : List FieldError :=
  (EventField.all.filter (fun f => decide ("required" ∈ f.rules) && e.isZero f)).map
    (fun f => ⟨f.goName, "required"⟩)

/-- The registered claims embedded in `TokenClaims`. -/
structure RegisteredClaims where
  Issuer : String
  Subject : String
  Audience : List String
  ExpiresAt : Option Int
  NotBefore : Option Int
  IssuedAt : Option Int
  ID : String
  deriving DecidableEq, Repr

/-- `type TokenClaims struct`. -/
structure TokenClaims where
  ID : String
  Email : String
  UserType : String
  registered : RegisteredClaims
  deriving DecidableEq, Repr

/-! ## `main.go`: the world a handler runs in -/

/-- A Go `error` value; `msg` is what `err.Error()` returns. -/
structure Error where
  msg : String
  deriving DecidableEq, Repr

/-- An inbound HTTP request: header fields and raw body. -/
structure Request where
  headers : List (String × String)
  body : String
  deriving DecidableEq, Repr

/-- A key set as returned by `jwk.Fetch`. -/
structure KeySet where
  keys : List String
  deriving DecidableEq, Repr

/-- A parsed token as returned by `jwt.ParseRequest`: its claims as key/value text. -/
structure Token where
  claims : List (String × String)
  deriving DecidableEq, Repr

/-- The instant `time.UnixMilli(ms)` denotes. -/
structure Time where
  unixMilli : Int
  deriving DecidableEq, Repr

/-- The eight arguments of one `batch.Append` call, in argument order. -/
structure Row where
  userId : String
  websiteId : String
  hookType : String
  eventType : String
  defaultMetadata : String
  coreMetadata : String
  elementMetadata : String
  timestamp : Time
  deriving DecidableEq, Repr

/-- A call that leaves the handler: to the identity provider, the token library, the body
parser, the store, or the next handler of the chain. -/
inductive Call where
  | fetch (url : String)
  | parseRequest
  | bodyParser
  | prepareBatch (query : String)
  | append (row : Row)
  | send
  | next
  deriving DecidableEq, Repr

/-- State of a `net/http` `ResponseWriter`: `status` is `none` until `WriteHeader` runs. -/
structure ResponseWriter where
  header : List (String × String)
  status : Option Nat
  body : String
  deriving DecidableEq, Repr

/-- Body of a fiber response; `json v` stands for the bytes `json.Marshal` yields for `v`. -/
inductive Body where
  | empty
  | text (s : String)
  | json (v : JsonValue)

/-- State of a `*fiber.Ctx`: the request and the response under construction. -/
structure Ctx where
  request : Request
  status : Nat
  contentType : String
  body : Body
  locals : List (String × Token)

/-- Everything a handler can read or change. -/
structure World where
  w : ResponseWriter
  c : Ctx
  stdout : List String
  log : List String
  calls : List Call

/-- The third-party functions the handlers call, each with the outcome it reports. -/
structure Env where
  /-- Third-party `jwk.Fetch(ctx, url)`. -/
  jwkFetch : String → Except Error KeySet
  /-- Third-party `jwt.ParseRequest(r, jwt.WithKeySet(keyset))`. -/
  jwtParseRequest : Request → KeySet → Except Error Token
  /-- Standard `json.MarshalIndent(token, "", " ")`. -/
  marshalIndentToken : Token → Except Error String
  /-- Standard `json.MarshalIndent(events, "", " ")`, whose error the handler discards. -/
  marshalIndentEvents : List Event → String
  /-- Standard `json.Marshal` of a metadata map. -/
  marshalMap : Option (List (String × JsonValue)) → Except Error String
  /-- Standard `json.Marshal` of an `ElementMetadata`. -/
  marshalElement : ElementMetadata → Except Error String
  /-- Fiber `c.BodyParser(&events)` applied to the request body. -/
  bodyParser : String → Except Error (List Event)
  /-- Store `clickhouseConn.PrepareBatch(ctx, query)`. -/
  prepareBatch : String → Option Error
  /-- Store `batch.Append(...)`. -/
  batchAppend : Row → Option Error
  /-- Store `batch.Send()`. -/
  batchSend : Option Error
  /-- Standard `os.Getenv`. -/
  getenv : String → String
  /-- The token check the handler built by `jwtware.New` performs with the signing key before it
  chooses a handler of its config. -/
  jwtwareCheck : String → Request → Except Error Token
  /-- What the next handler of the chain returns to `c.Next()`. -/
  nextResult : Option Error

/-- Outcome of running a statement inside a function body: the function has executed a
`return` with value `v`, or control goes on with `a`. -/
inductive Flow (ρ α : Type) where
  | done (v : ρ)
  | go (a : α)

/-- A piece of a Go function body whose `return` statements yield a `ρ`. -/
def Go (ρ α : Type) : Type := World → Flow ρ α × World

/-- Sequencing of statements: nothing after a `return` is executed. -/
def Go.bind {ρ α β : Type} (x : Go ρ α) (f : α → Go ρ β) : Go ρ β := fun s =>
  match x s with
  | (.done v, s1) => (.done v, s1)
  | (.go a, s1) => f a s1

instance {ρ : Type} : Monad (Go ρ) where
  pure a := fun s => (.go a, s)
  bind := Go.bind

/-- The statement `return v`. -/
def ret {ρ α : Type} (v : ρ) : Go ρ α := fun s => (.done v, s)

/-- Change the world and go on. -/
def act {ρ : Type} (f : World → World) : Go ρ Unit := fun s => (.go (), f s)

/-- Read the world. -/
def look {ρ α : Type} (f : World → α) : Go ρ α := fun s => (.go (f s), s)

/-- Call a function whose body is `body` and obtain what it returns. -/
def call {ρ σ : Type} (body : Go σ σ) : Go ρ σ := fun s =>
  match body s with
  | (.done v, s1) => (.go v, s1)
  | (.go v, s1) => (.go v, s1)

/-- Run a whole function body: the value it returns and the world it leaves. -/
def Go.run {ρ : Type} (body : Go ρ ρ) (s : World) : ρ × World :=
  match body s with
  | (.done v, s1) => (v, s1)
  | (.go v, s1) => (v, s1)

/-- Record a call that leaves the handler. -/
def record {ρ : Type} (k : Call) : Go ρ Unit := act fun s => { s with calls := s.calls ++ [k] }

/-- `fmt.Println(line)`. -/
def fmtPrintln {ρ : Type} (line : String) : Go ρ Unit :=
  act fun s => { s with stdout := s.stdout ++ [line] }

/-- `log.Println(a, b)`: the operands separated by a blank. -/
def logPrintln {ρ : Type} (a b : String) : Go ρ Unit :=
  act fun s => { s with log := s.log ++ [a ++ " " ++ b] }

/-- `h.Set(key, value)` on a header. -/
def headerSet (h : List (String × String)) (key value : String) : List (String × String) :=
  h.filter (fun kv => kv.1 != key) ++ [(key, value)]

/-- `h.Del(key)` on a header. -/
def headerDel (h : List (String × String)) (key : String) : List (String × String) :=
  h.filter (fun kv => kv.1 != key)

/-- `http.Error(w, error, code)`: plain-text headers, `WriteHeader(code)` (which only the first
time sets the status), then the message and a newline written to the body. -/
def httpError {ρ : Type} (error : String) (code : Nat) : Go ρ Unit :=
  act fun s => { s with w :=
    { header := headerSet (headerSet (headerDel s.w.header "Content-Length")
        "Content-Type" "text/plain; charset=utf-8") "X-Content-Type-Options" "nosniff"
      status := some (s.w.status.getD code)
      body := s.w.body ++ error ++ "\n" } }

/-- `fiber.StatusBadRequest`. -/
def StatusBadRequest : Nat := 400

/-- `fiber.StatusUnauthorized`. -/
def StatusUnauthorized : Nat := 401

/-- `fiber.StatusInternalServerError`. -/
def StatusInternalServerError : Nat := 500

/-- `utils.StatusMessage`, for the status codes the server uses. -/
def statusMessage (code : Nat) : String :=
  if code = 200 then "OK"
  else if code = 400 then "Bad Request"
  else if code = 401 then "Unauthorized"
  else if code = 500 then "Internal Server Error"
  else ""

/-- `c.Status(code)`. -/
def cStatus {ρ : Type} (code : Nat) : Go ρ Unit :=
  act fun s => { s with c := { s.c with status := code } }

/-- `c.JSON(fiber.Map{...})`: the members are given in key order, as `json.Marshal` writes a map;
a map of booleans and strings always encodes, so the call returns nil. -/
def cJSON {ρ : Type} (members : List (String × JsonValue)) : Go ρ (Option Error) := fun s =>
  (.go none, { s with c := { s.c with body := .json (.object members)
                                      contentType := "application/json" } })

/-- `c.SendStatus(code)`: sets the status and, when the body is still empty, the status text. -/
def cSendStatus {ρ : Type} (code : Nat) : Go ρ (Option Error) := fun s =>
  (.go none, { s with c :=
    match s.c.body with
    | .empty => { s.c with status := code, body := .text (statusMessage code) }
    | _ => { s.c with status := code } })

/-- `c.Next()`: hands over to the next handler of the chain and returns its result. -/
def cNext {ρ : Type} (env : Env) : Go ρ (Option Error) := do
  record .next
  pure env.nextResult

/-! ## `main.go`: the handlers -/

/-- The key-set address `VerifyToken` fetches. -/
def jwksURL : String := "http://localhost:3000/api/auth/jwks"

/-- `func VerifyToken(r *http.Request) (*types.TokenClaims, error)` (main.go lines 208-228). -/
def VerifyToken (env : Env) (r : Request) :
    Go (Option TokenClaims × Option Error) (Option TokenClaims × Option Error) := do
  record (.fetch jwksURL)
  match env.jwkFetch jwksURL with
  | .error err => ret (none, some err)
  | .ok keyset =>
    record .parseRequest
    match env.jwtParseRequest r keyset with
    | .error err => ret (none, some err)
    | .ok token =>
      match env.marshalIndentToken token with
      | .error err => ret (none, some err)
      | .ok jsBytes =>
        fmtPrintln jsBytes
        ret (none, none)

/-- `func testHandler(w http.ResponseWriter, r *http.Request)` (main.go lines 46-52). -/
def testHandler (env : Env) (r : Request) : Go Unit Unit := do
  let (_, err) ← call (VerifyToken env r)
  match err with
  | some err => httpError err.msg 500
  | none => pure ()

/-- The query text passed to `PrepareBatch` (main.go lines 68-79). -/
def insertQuery : String :=
  "\n\tINSERT INTO event_log (\n\t\tuserId,\n\t\twebsiteId,\n\t\thookType,\n\t\teventType,\n\t\tdefaultMetadata,\n\t\tcoreMetadata,\n\t\telementMetadata,\n\t\ttimestamp\n\t)\n"

/-- The loop `for _, e := range events` of `handleEvents` (main.go lines 88-120). -/
def appendEvents (env : Env) : List Event → Go (Option Error) Unit
  | [] => pure ()
  | e :: rest => do
    match env.marshalMap e.DefaultMetadata with
    | .error err =>
      cStatus StatusBadRequest
      ret (← cJSON [("error", .string err.msg)])
    | .ok defaultMetadata =>
      match env.marshalMap e.CoreMetadata with
      | .error err =>
        cStatus StatusBadRequest
        ret (← cJSON [("error", .string err.msg)])
      | .ok coreMetadata =>
        match env.marshalElement e.ElementMetadata with
        | .error err =>
          cStatus StatusBadRequest
          ret (← cJSON [("error", .string err.msg)])
        | .ok elementMetadata =>
          let hookType := e.HookType
          let eventType := e.EventType
          let userId := e.UserId
          let websiteId := e.WebsiteId
          let timestamp : Time := ⟨e.Timestamp⟩
          let row : Row := ⟨userId, websiteId, hookType, eventType, defaultMetadata,
            coreMetadata, elementMetadata, timestamp⟩
          record (.append row)
          match env.batchAppend row with
          | some err =>
            logPrintln "Append error:" err.msg
            ret (← cSendStatus StatusInternalServerError)
          | none => appendEvents env rest

/-- The statements of `handleEvents` that follow its first `return` (main.go lines 57-129). -/
def handleEventsRest (env : Env) : Go (Option Error) (Option Error) := do
  record .bodyParser
  match env.bodyParser (← look (·.c.request.body)) with
  | .error _ =>
    cStatus StatusBadRequest
    ret (← cJSON [("error", .string "invalid request body")])
  | .ok events =>
    let jsonData := env.marshalIndentEvents events
    fmtPrintln jsonData
    record (.prepareBatch insertQuery)
    match env.prepareBatch insertQuery with
    | some err =>
      logPrintln "Batch error:" err.msg
      cStatus StatusBadRequest
      ret (← cJSON [("error", .string err.msg)])
    | none =>
      appendEvents env events
      record .send
      match env.batchSend with
      | some err =>
        logPrintln "Send error:" err.msg
        ret (← cSendStatus StatusInternalServerError)
      | none =>
        ret (← cJSON [("message",
          .string (toString events.length ++ " events logged successfully"))])

/-- `func handleEvents(c *fiber.Ctx) error` (main.go lines 54-130): the body opens with
`return nil`, and the statements of lines 57-129 follow it. -/
def handleEvents (env : Env) : Go (Option Error) (Option Error) := do
  ret none
  handleEventsRest env

/-- The fields of `jwtware.Config` that `Middleware` sets. -/
structure Config where
  SigningKey : String
  ContextKey : String
  ErrorHandler : Error → Go (Option Error) (Option Error)
  SuccessHandler : Go (Option Error) (Option Error)

/-- The handler `jwtware.New(cfg)` builds: it checks the request's token with the signing key and
runs `cfg.ErrorHandler` on failure; on success it stores the token under `cfg.ContextKey` and
runs `cfg.SuccessHandler`. -/
def jwtwareNew (env : Env) (cfg : Config) : Go (Option Error) (Option Error) := do
  match env.jwtwareCheck cfg.SigningKey (← look (·.c.request)) with
  | .error err => ret (← call (cfg.ErrorHandler err))
  | .ok token =>
    act fun s => { s with c := { s.c with locals := s.c.locals ++ [(cfg.ContextKey, token)] } }
    ret (← call cfg.SuccessHandler)

/-- The `jwtware.Config` literal of `Middleware` (main.go lines 189-205). -/
def middlewareConfig (env : Env) : Config where
  SigningKey := env.getenv "JWT_SECRET"
  ContextKey := "jwt"
  ErrorHandler := fun err => do
    cStatus StatusUnauthorized
    ret (← cJSON [("error", .bool true), ("message", .string ("Unauthorized: " ++ err.msg))])
  SuccessHandler := do
    ret (← cNext env)

/-- `func Middleware() fiber.Handler` (main.go lines 188-206). -/
def Middleware (env : Env) : Go (Option Error) (Option Error) :=
  jwtwareNew env (middlewareConfig env)

/-- A row is the one `appendEvents` builds for an event: the four identifiers and the instant
are copied, the three metadata columns are what marshalling yields. -/
def RowFor (env : Env) (e : Event) (row : Row) : Prop :=
  row.userId = e.UserId ∧ row.websiteId = e.WebsiteId ∧ row.hookType = e.HookType ∧
  row.eventType = e.EventType ∧ row.timestamp = ⟨e.Timestamp⟩ ∧
  env.marshalMap e.DefaultMetadata = .ok row.defaultMetadata ∧
  env.marshalMap e.CoreMetadata = .ok row.coreMetadata ∧
  env.marshalElement e.ElementMetadata = .ok row.elementMetadata

/-! ## Sample inputs -/

/-- A request carrying a bearer token and one event. -/
def sampleRequest : Request where
  headers := [("Authorization", "Bearer abc.def.ghi")]
  body := "[\x7b\"user_id\":\"u1\",\"website_id\":\"w1\",\"event_type\":\"page_view\"\x7d]"

/-- The state in which a handler is entered for request `r`: nothing written, nothing called. -/
def World.fresh (r : Request) : World where
  w := { header := [], status := none, body := "" }
  c := { request := r, status := 200, contentType := "", body := .empty, locals := [] }
  stdout := []
  log := []
  calls := []

/-- An event with every required field set. -/
def sampleEvent : Event where
  UserId := "u1"
  WebsiteId := "w1"
  HookType := "track_duration"
  EventType := "page_view"
  DefaultMetadata := some []
  CoreMetadata := some [("path", .string "/home")]
  ElementMetadata := ⟨"", "", "", ""⟩
  Timestamp := 1700000000000

/-- The same event with its hook type left out of the payload. -/
def eventWithoutHookType : Event :=
  { sampleEvent with HookType := "" }

/-- An environment in which every third-party call succeeds; the body parser yields one event. -/
def envAllOk : Env where
  jwkFetch := fun _ => .ok ⟨["key-1"]⟩
  jwtParseRequest := fun _ _ => .ok ⟨[("sub", "u1")]⟩
  marshalIndentToken := fun _ => .ok "token-json"
  marshalIndentEvents := fun _ => "events-json"
  marshalMap := fun _ => .ok "map-json"
  marshalElement := fun _ => .ok "element-json"
  bodyParser := fun _ => .ok [sampleEvent]
  prepareBatch := fun _ => none
  batchAppend := fun _ => none
  batchSend := none
  getenv := fun _ => "secret"
  jwtwareCheck := fun _ _ => .ok ⟨[("sub", "u1")]⟩
  nextResult := none

/-- An environment in which the key set cannot be fetched. -/
def envFetchDown : Env :=
  { envAllOk with jwkFetch := fun _ => .error ⟨"failed to fetch key set"⟩ }

/-- An environment in which the middleware's token check fails. -/
def envBadToken : Env :=
  { envAllOk with jwtwareCheck := fun _ _ => .error ⟨"missing or malformed JWT"⟩ }

end Hooklytics

/-! ## Properties -/

namespace Hooklytics

/-- An index expression yields a value exactly when the index lies within the array. -/
theorem index_isSome_iff {α : Type} (a : List α) (i : Int) :
    (index a i).isSome = true ↔ 0 ≤ i ∧ i < a.length := by
  unfold index
  by_cases h : 0 ≤ i ∧ i < (a.length : Int)
  · have hlt : i.toNat < a.length := by omega
    simp [h, List.get?_eq_get hlt]
  · simp [h]

/-- On the range of a Go `int`, `ts - 1` lands in `0..4` exactly for `ts` in `1..5`; the one
subtraction that wraps, at `minInt`, lands on `maxInt`. -/
theorem wrapInt_pred_lt_five_iff (ts : Int) (hlo : minInt ≤ ts) (hhi : ts ≤ maxInt) :
    (0 ≤ wrapInt (ts - 1) ∧ wrapInt (ts - 1) < 5) ↔ (1 ≤ ts ∧ ts ≤ 5) := by
  unfold wrapInt
  simp only [minInt, maxInt, intBits] at *
  norm_num at *
  omega

/-- C1: `HookType.String` maps the five known hook types, whose values are 1 to 5, to their
wire names. -/
theorem hookType_String_known :
    (TRACK_EVENT = 1 ∧ HookType.String TRACK_EVENT = some "track_event") ∧
    (TRACK_ELEMENT_EVENT = 2 ∧
      HookType.String TRACK_ELEMENT_EVENT = some "track_element_event") ∧
    (TRACK_DURATION = 3 ∧ HookType.String TRACK_DURATION = some "track_duration") ∧
    (TRACK_CLICKS = 4 ∧ HookType.String TRACK_CLICKS = some "track_clicks") ∧
    (TRACK_VISIBILITY = 5 ∧ HookType.String TRACK_VISIBILITY = some "track_visibility") := by
  decide

/-- C2: for every value `ts` of the Go `int` range, the lookup in `HookType.String` is in bounds
exactly when `1 ≤ ts ≤ 5`, and for every `ts` outside that range it fails (panics) instead of
returning a string. -/
theorem hookType_String_in_bounds_iff (ts : HookType) (hlo : minInt ≤ ts) (hhi : ts ≤ maxInt) :
    ((HookType.String ts).isSome = true ↔ (1 ≤ ts ∧ ts ≤ 5)) ∧
    (¬ (1 ≤ ts ∧ ts ≤ 5) → HookType.String ts = none) := by
  have key : (HookType.String ts).isSome = true ↔ (1 ≤ ts ∧ ts ≤ 5) := by
    unfold HookType.String
    rw [index_isSome_iff]
    exact wrapInt_pred_lt_five_iff ts hlo hhi
  refine ⟨key, fun hout => ?_⟩
  cases hs : HookType.String ts with
  | none => rfl
  | some v =>
    exfalso
    apply hout
    apply key.mp
    simp [hs]

/-- Witness for C2 at the zero value and at the two ends of the `int` range. -/
theorem hookType_String_in_bounds_iff_witness :
    (minInt ≤ 0 ∧ (0 : Int) ≤ maxInt ∧ HookType.String 0 = none) ∧
    HookType.String (-7) = none ∧ HookType.String minInt = none ∧
    HookType.String maxInt = none ∧ (HookType.String 5).isSome = true :=
  ⟨⟨by decide, by decide,
    (hookType_String_in_bounds_iff 0 (by decide) (by decide)).2 (by decide)⟩,
   (hookType_String_in_bounds_iff (-7) (by decide) (by decide)).2 (by decide),
   (hookType_String_in_bounds_iff minInt (by decide) (by decide)).2 (by decide),
   (hookType_String_in_bounds_iff maxInt (by decide) (by decide)).2 (by decide),
   (hookType_String_in_bounds_iff 5 (by decide) (by decide)).1.mpr (by decide)⟩

/-- C3: for every request and every environment, `handleEvents` returns a nil error and leaves
the world exactly as it found it: the body parser is not called, no status or response body is
written, and no batch is prepared, appended to or sent. -/
theorem handleEvents_returns_early (env : Env) (s : World) :
    (handleEvents env).run s = (none, s) ∧
    ((handleEvents env).run s).2.calls = s.calls ∧
    ((handleEvents env).run s).2.c.status = s.c.status := by
  exact ⟨rfl, rfl, rfl⟩

/-- Every way through `VerifyToken` ends in a `return nil, ...`. -/
theorem VerifyToken_fst (env : Env) (r : Request) (s : World) :
    ((VerifyToken env r).run s).1.1 = none := by
  cases hf : env.jwkFetch jwksURL with
  | error err =>
    simp only [VerifyToken, Go.run, bind, Go.bind, record, act, ret, fmtPrintln, hf]
  | ok keyset =>
    cases hp : env.jwtParseRequest r keyset with
    | error err =>
      simp only [VerifyToken, Go.run, bind, Go.bind, record, act, ret, fmtPrintln, hf, hp]
    | ok token =>
      cases hm : env.marshalIndentToken token with
      | error err =>
        simp only [VerifyToken, Go.run, bind, Go.bind, record, act, ret, fmtPrintln, hf, hp, hm]
      | ok jsBytes =>
        simp only [VerifyToken, Go.run, bind, Go.bind, record, act, ret, fmtPrintln, hf, hp, hm]

/-- C4: whatever the key-set fetch, the token parse and the marshalling report, the claims
`VerifyToken` returns are nil; when all three succeed it returns `(nil, nil)`, having printed
the marshalled token. -/
theorem VerifyToken_never_returns_claims (env : Env) (r : Request) (s : World) :
    ((VerifyToken env r).run s).1.1 = none ∧
    ∀ keyset token jsBytes, env.jwkFetch jwksURL = .ok keyset →
      env.jwtParseRequest r keyset = .ok token →
      env.marshalIndentToken token = .ok jsBytes →
      ((VerifyToken env r).run s).1 = (none, none) ∧
      ((VerifyToken env r).run s).2.stdout = s.stdout ++ [jsBytes] := by
  refine ⟨VerifyToken_fst env r s, ?_⟩
  intro keyset token jsBytes hf hp hm
  constructor <;>
    simp only [VerifyToken, Go.run, bind, Go.bind, record, act, ret, fmtPrintln, hf, hp, hm]

/-- Witness for C4: with a key set, a valid token and a successful marshalling, the caller gets
neither claims nor an error. -/
theorem VerifyToken_never_returns_claims_witness :
    envAllOk.jwkFetch jwksURL = .ok ⟨["key-1"]⟩ ∧
    envAllOk.jwtParseRequest sampleRequest ⟨["key-1"]⟩ = .ok ⟨[("sub", "u1")]⟩ ∧
    envAllOk.marshalIndentToken ⟨[("sub", "u1")]⟩ = .ok "token-json" ∧
    ((VerifyToken envAllOk sampleRequest).run (World.fresh sampleRequest)).1 = (none, none) :=
  ⟨rfl, rfl, rfl,
   ((VerifyToken_never_returns_claims envAllOk sampleRequest (World.fresh sampleRequest)).2
      ⟨["key-1"]⟩ ⟨[("sub", "u1")]⟩ "token-json" rfl rfl rfl).1⟩

/-- C5: when the key-set fetch reports an error, `VerifyToken` returns nil claims with that same
error, and the only call it has made is the one fetch: no second fetch and no token parse. -/
theorem VerifyToken_fetch_error (env : Env) (r : Request) (s : World) (err : Error)
    (h : env.jwkFetch jwksURL = .error err) :
    ((VerifyToken env r).run s).1 = (none, some err) ∧
    ((VerifyToken env r).run s).2.calls = s.calls ++ [Call.fetch jwksURL] ∧
    Call.parseRequest ∉ ((VerifyToken env r).run s).2.calls.drop s.calls.length ∧
    ((VerifyToken env r).run s).2.stdout = s.stdout := by
  have hrun : (VerifyToken env r).run s =
      ((none, some err), { s with calls := s.calls ++ [Call.fetch jwksURL] }) := by
    simp only [VerifyToken, Go.run, bind, Go.bind, record, act, ret, h]
  rw [hrun]
  refine ⟨rfl, rfl, ?_, rfl⟩
  simp

/-- Witness for C5: the identity provider is down. -/
theorem VerifyToken_fetch_error_witness :
    envFetchDown.jwkFetch jwksURL = .error ⟨"failed to fetch key set"⟩ ∧
    ((VerifyToken envFetchDown sampleRequest).run (World.fresh sampleRequest)).1 =
      (none, some ⟨"failed to fetch key set"⟩) ∧
    ((VerifyToken envFetchDown sampleRequest).run (World.fresh sampleRequest)).2.calls =
      [.fetch jwksURL] :=
  ⟨rfl,
   (VerifyToken_fetch_error envFetchDown sampleRequest (World.fresh sampleRequest)
      ⟨"failed to fetch key set"⟩ rfl).1,
   (VerifyToken_fetch_error envFetchDown sampleRequest (World.fresh sampleRequest)
      ⟨"failed to fetch key set"⟩ rfl).2.1⟩

/-- The world `http.Error` leaves. -/
theorem httpError_run (error : String) (code : Nat) (s : World) :
    ((httpError error code : Go Unit Unit).run s).2.w =
      { header := headerSet (headerSet (headerDel s.w.header "Content-Length")
          "Content-Type" "text/plain; charset=utf-8") "X-Content-Type-Options" "nosniff"
        status := some (s.w.status.getD code)
        body := s.w.body ++ error ++ "\n" } := rfl

/-- What `testHandler` does with the result of `VerifyToken`. -/
theorem testHandler_run (env : Env) (r : Request) (s : World) :
    (testHandler env r).run s =
      match ((VerifyToken env r).run s).1.2 with
      | some err => (httpError err.msg 500 : Go Unit Unit).run ((VerifyToken env r).run s).2
      | none => ((), ((VerifyToken env r).run s).2) := by
  simp only [testHandler, Go.run, bind, Go.bind, call]
  rcases hv : VerifyToken env r s with ⟨fl, s1⟩
  cases fl with
  | done v =>
    obtain ⟨cl, e⟩ := v
    cases e <;> rfl
  | go v =>
    obtain ⟨cl, e⟩ := v
    cases e <;> rfl

/-- `VerifyToken` never touches the response writer. -/
theorem VerifyToken_writer (env : Env) (r : Request) (s : World) :
    ((VerifyToken env r).run s).2.w = s.w := by
  cases hf : env.jwkFetch jwksURL with
  | error err =>
    simp only [VerifyToken, Go.run, bind, Go.bind, record, act, ret, fmtPrintln, hf]
  | ok keyset =>
    cases hp : env.jwtParseRequest r keyset with
    | error err =>
      simp only [VerifyToken, Go.run, bind, Go.bind, record, act, ret, fmtPrintln, hf, hp]
    | ok token =>
      cases hm : env.marshalIndentToken token with
      | error err =>
        simp only [VerifyToken, Go.run, bind, Go.bind, record, act, ret, fmtPrintln, hf, hp, hm]
      | ok jsBytes =>
        simp only [VerifyToken, Go.run, bind, Go.bind, record, act, ret, fmtPrintln, hf, hp, hm]

/-- C6 (as the code has it): when `VerifyToken` returns an error, `testHandler`, entered with
nothing written yet, answers with status 500 and a body holding the error's message and a
newline. -/
theorem testHandler_error_status_500 (env : Env) (r : Request) (s : World) (err : Error)
    (hfresh : s.w.status = none)
    (herr : ((VerifyToken env r).run s).1.2 = some err) :
    ((testHandler env r).run s).2.w.status = some 500 ∧
    ((testHandler env r).run s).2.w.body = s.w.body ++ err.msg ++ "\n" := by
  rw [testHandler_run, herr]
  simp only [httpError_run, VerifyToken_writer, hfresh]
  exact ⟨rfl, trivial⟩

/-- Witness for C6 as amended: the key set cannot be fetched. -/
theorem testHandler_error_status_500_witness :
    (World.fresh sampleRequest).w.status = none ∧
    ((VerifyToken envFetchDown sampleRequest).run (World.fresh sampleRequest)).1.2 =
      some ⟨"failed to fetch key set"⟩ ∧
    ((testHandler envFetchDown sampleRequest).run (World.fresh sampleRequest)).2.w.status =
      some 500 ∧
    ((testHandler envFetchDown sampleRequest).run (World.fresh sampleRequest)).2.w.body =
      "failed to fetch key set\n" :=
  ⟨rfl, rfl,
   testHandler_error_status_500 envFetchDown sampleRequest (World.fresh sampleRequest)
     ⟨"failed to fetch key set"⟩ rfl rfl⟩

/-- C6 fails as stated: on a request whose verification fails, the status `testHandler`
writes is 500, which is neither 401 nor any other 4xx status. -/
theorem testHandler_error_not_401 :
    ((VerifyToken envFetchDown sampleRequest).run (World.fresh sampleRequest)).1.2 =
      some ⟨"failed to fetch key set"⟩ ∧
    ((testHandler envFetchDown sampleRequest).run (World.fresh sampleRequest)).2.w.status ≠
      some 401 ∧
    ¬ ∃ code, ((testHandler envFetchDown sampleRequest).run
        (World.fresh sampleRequest)).2.w.status = some code ∧ 400 ≤ code ∧ code < 500 := by
  refine ⟨rfl, by decide, ?_⟩
  rintro ⟨code, hc, hlo, hhi⟩
  have h500 : ((testHandler envFetchDown sampleRequest).run
      (World.fresh sampleRequest)).2.w.status = some 500 := rfl
  rw [h500] at hc
  injection hc with hc
  omega

/-- C7: for every error, the `ErrorHandler` of `Middleware` returns after setting status 401
and the JSON body `error = true`, `message = "Unauthorized: " + err.Error()`, and it makes no
call at all, so it never calls the next handler; `SuccessHandler` is the one that calls it.
Accordingly the middleware as a whole calls the next handler exactly when the token check
succeeds, and answers 401 with that body when it fails. -/
theorem middleware_errorHandler_rejects (env : Env) (s : World) :
    (∀ err : Error,
      (((middlewareConfig env).ErrorHandler err).run s).1 = none ∧
      (((middlewareConfig env).ErrorHandler err).run s).2.c.status = 401 ∧
      (((middlewareConfig env).ErrorHandler err).run s).2.c.body =
        .json (.object [("error", .bool true),
                        ("message", .string ("Unauthorized: " ++ err.msg))]) ∧
      (((middlewareConfig env).ErrorHandler err).run s).2.calls = s.calls) ∧
    (middlewareConfig env).SuccessHandler.run s =
      (env.nextResult, { s with calls := s.calls ++ [Call.next] }) ∧
    (∀ err : Error, env.jwtwareCheck (env.getenv "JWT_SECRET") s.c.request = .error err →
      ((Middleware env).run s).2.c.status = 401 ∧
      ((Middleware env).run s).2.c.body =
        .json (.object [("error", .bool true),
                        ("message", .string ("Unauthorized: " ++ err.msg))]) ∧
      ((Middleware env).run s).2.calls = s.calls) ∧
    (∀ token : Token, env.jwtwareCheck (env.getenv "JWT_SECRET") s.c.request = .ok token →
      ((Middleware env).run s).2.calls = s.calls ++ [Call.next]) := by
  refine ⟨fun err => ⟨rfl, rfl, rfl, rfl⟩, rfl, ?_, ?_⟩
  · intro err h
    have hrun : (Middleware env).run s = ((middlewareConfig env).ErrorHandler err).run s := by
      simp only [Middleware, jwtwareNew, Go.run, bind, Go.bind, look, call, ret, middlewareConfig,
        h]
      rfl
    rw [hrun]
    exact ⟨rfl, rfl, rfl⟩
  · intro token h
    simp only [Middleware, jwtwareNew, Go.run, bind, Go.bind, look, call, ret, middlewareConfig,
      h]
    rfl

/-- Witness for C7: a request whose token the middleware rejects. -/
theorem middleware_errorHandler_rejects_witness :
    envBadToken.jwtwareCheck (envBadToken.getenv "JWT_SECRET") (World.fresh sampleRequest).c.request
      = .error ⟨"missing or malformed JWT"⟩ ∧
    ((Middleware envBadToken).run (World.fresh sampleRequest)).2.c.status = 401 ∧
    ((Middleware envBadToken).run (World.fresh sampleRequest)).2.c.body =
      .json (.object [("error", .bool true),
                      ("message", .string "Unauthorized: missing or malformed JWT")]) ∧
    ((Middleware envBadToken).run (World.fresh sampleRequest)).2.calls = [] :=
  ⟨rfl, (middleware_errorHandler_rejects envBadToken (World.fresh sampleRequest)).2.2.1
    ⟨"missing or malformed JWT"⟩ rfl⟩

/-- When marshalling and every append succeed, the loop appends one row per event, in order,
and falls through to the statement after it. -/
theorem appendEvents_success (env : Env)
    (hmap : ∀ m, ∃ b, env.marshalMap m = .ok b)
    (helem : ∀ x, ∃ b, env.marshalElement x = .ok b)
    (happend : ∀ row, env.batchAppend row = none) (events : List Event) :
    ∀ s : World, ∃ rows : List Row, List.Forall₂ (RowFor env) events rows ∧
      appendEvents env events s =
        (.go (), { s with calls := s.calls ++ rows.map Call.append }) := by
  induction events with
  | nil =>
    intro s
    exact ⟨[], List.Forall₂.nil, by simp [appendEvents, pure]⟩
  | cons e rest ih =>
    intro s
    obtain ⟨dm, hdm⟩ := hmap e.DefaultMetadata
    obtain ⟨cm, hcm⟩ := hmap e.CoreMetadata
    obtain ⟨em, hem⟩ := helem e.ElementMetadata
    obtain ⟨rows, hrows, hrun⟩ := ih
      { s with calls := s.calls ++
          [Call.append ⟨e.UserId, e.WebsiteId, e.HookType, e.EventType, dm, cm, em,
            ⟨e.Timestamp⟩⟩] }
    refine ⟨⟨e.UserId, e.WebsiteId, e.HookType, e.EventType, dm, cm, em, ⟨e.Timestamp⟩⟩ :: rows,
      List.Forall₂.cons ⟨rfl, rfl, rfl, rfl, rfl, hdm, hcm, hem⟩ hrows, ?_⟩
    simp only [appendEvents, bind, Go.bind, record, act, hdm, hcm, hem, happend, hrun,
      List.map_cons, List.append_assoc, List.singleton_append]

/-- The statements after the first `return` of `handleEvents` do what an ingestion handler
should: on a body that parses to `events`, with every marshalling and store operation
succeeding, they prepare one batch, append one row per event, send the batch and answer 200
with a message counting the events. -/
theorem handleEventsRest_success (env : Env) (s : World) (events : List Event)
    (hbody : env.bodyParser s.c.request.body = .ok events)
    (hmap : ∀ m, ∃ b, env.marshalMap m = .ok b)
    (helem : ∀ x, ∃ b, env.marshalElement x = .ok b)
    (hprep : env.prepareBatch insertQuery = none)
    (happend : ∀ row, env.batchAppend row = none)
    (hsend : env.batchSend = none)
    (hstatus : s.c.status = 200) :
    ∃ rows : List Row, List.Forall₂ (RowFor env) events rows ∧
      ((handleEventsRest env).run s).1 = none ∧
      ((handleEventsRest env).run s).2.calls =
        s.calls ++ [Call.bodyParser, Call.prepareBatch insertQuery] ++ rows.map Call.append
          ++ [Call.send] ∧
      ((handleEventsRest env).run s).2.c.status = 200 ∧
      ((handleEventsRest env).run s).2.c.body =
        .json (.object [("message",
          .string (toString events.length ++ " events logged successfully"))]) := by
  obtain ⟨rows, hrows, hrun⟩ := appendEvents_success env hmap helem happend events
    { s with stdout := s.stdout ++ [env.marshalIndentEvents events]
             calls := s.calls ++ [Call.bodyParser, Call.prepareBatch insertQuery] }
  refine ⟨rows, hrows, ?_⟩
  simp only [handleEventsRest, Go.run, bind, Go.bind, record, act, look, fmtPrintln, hbody,
    hprep, hsend, hrun, cJSON, ret, hstatus, List.append_assoc, List.singleton_append,
    and_self, true_and]

/-- C8 fails on the code: for a request whose body holds one well-formed event, with every
store operation succeeding, `handleEvents` returns nil having appended nothing, sent nothing
and written no response body, where the statements after its first `return` would have
appended the event, sent the batch and reported a count of 1. -/
theorem handleEvents_accepts_nothing :
    envAllOk.bodyParser (World.fresh sampleRequest).c.request.body = .ok [sampleEvent] ∧
    (handleEvents envAllOk).run (World.fresh sampleRequest) = (none, World.fresh sampleRequest) ∧
    ((handleEvents envAllOk).run (World.fresh sampleRequest)).2.calls = [] ∧
    ((handleEvents envAllOk).run (World.fresh sampleRequest)).2.c.body = Body.empty ∧
    ((handleEventsRest envAllOk).run (World.fresh sampleRequest)).2.calls =
      [Call.bodyParser, Call.prepareBatch insertQuery,
       Call.append ⟨"u1", "w1", "track_duration", "page_view", "map-json", "map-json",
         "element-json", ⟨1700000000000⟩⟩,
       Call.send] ∧
    ((handleEventsRest envAllOk).run (World.fresh sampleRequest)).2.c.body =
      .json (.object [("message", .string "1 events logged successfully")]) := by
  exact ⟨rfl, rfl, rfl, rfl, by decide, rfl⟩

/-- The fields of `Event` whose declared rules contain `required`: `HookType`, whose tag key is
spelt `valdate`, is not among them. -/
theorem required_fields :
    EventField.all.filter (fun f => decide ("required" ∈ f.rules)) =
      [.UserId, .WebsiteId, .EventType, .DefaultMetadata, .CoreMetadata] := by
  decide

/-- No event is ever rejected with a violation naming `HookType`. -/
theorem validate_never_names_HookType (e : Event) :
    ∀ v ∈ e.validate, v.field ≠ "HookType" := by
  intro v hv
  simp only [Event.validate, List.mem_map, List.mem_filter, Bool.and_eq_true,
    decide_eq_true_eq] at hv
  obtain ⟨f, ⟨_, hreq, _⟩, rfl⟩ := hv
  cases f <;> first
    | (exfalso; revert hreq; decide)
    | decide

/-- An event missing `userId`, `websiteId` or `eventType` is rejected with a violation naming
that field. -/
theorem validate_names_missing (e : Event) :
    (e.UserId = "" → ⟨"UserId", "required"⟩ ∈ e.validate) ∧
    (e.WebsiteId = "" → ⟨"WebsiteId", "required"⟩ ∈ e.validate) ∧
    (e.EventType = "" → ⟨"EventType", "required"⟩ ∈ e.validate) := by
  refine ⟨fun h => ?_, fun h => ?_, fun h => ?_⟩
  · exact List.mem_map.mpr ⟨.UserId, List.mem_filter.mpr ⟨by decide, by
      simp only [Bool.and_eq_true, decide_eq_true_eq, Event.isZero, h]
      exact ⟨by decide, by decide⟩⟩, rfl⟩
  · exact List.mem_map.mpr ⟨.WebsiteId, List.mem_filter.mpr ⟨by decide, by
      simp only [Bool.and_eq_true, decide_eq_true_eq, Event.isZero, h]
      exact ⟨by decide, by decide⟩⟩, rfl⟩
  · exact List.mem_map.mpr ⟨.EventType, List.mem_filter.mpr ⟨by decide, by
      simp only [Bool.and_eq_true, decide_eq_true_eq, Event.isZero, h]
      exact ⟨by decide, by decide⟩⟩, rfl⟩

/-- C9 fails on the code: an event whose payload has no `hookType` (the field is left at its
zero value) and whose other required fields are set passes validation with no violation at all,
because the tag on `HookType` reads `valdate:"required"` and so declares no rule; the same
omission on `UserId`, `WebsiteId` or `EventType` is reported. -/
theorem validate_missing_hookType_passes :
    eventWithoutHookType.HookType = "" ∧
    eventWithoutHookType.validate = [] ∧
    EventField.HookType.tag.Get "validate" = "" ∧
    EventField.HookType.tag.Get "valdate" = "required" ∧
    EventField.HookType.rules = [] ∧
    Event.validate { sampleEvent with UserId := "" } = [⟨"UserId", "required"⟩] ∧
    Event.validate { sampleEvent with WebsiteId := "" } = [⟨"WebsiteId", "required"⟩] ∧
    Event.validate { sampleEvent with EventType := "" } = [⟨"EventType", "required"⟩] := by
  decide

/-- C10 fails as stated: for seven of the eight fields the key declared on `Event` is not the
camel-case name of section 3 of the specification. -/
theorem jsonKey_not_camelCase :
    EventField.UserId.jsonKey ≠ "userId" ∧
    EventField.WebsiteId.jsonKey ≠ "websiteId" ∧
    EventField.HookType.jsonKey ≠ "hookType" ∧
    EventField.EventType.jsonKey ≠ "eventType" ∧
    EventField.DefaultMetadata.jsonKey ≠ "defaultMetadata" ∧
    EventField.CoreMetadata.jsonKey ≠ "coreMetadata" ∧
    EventField.ElementMetadata.jsonKey ≠ "elementMetadata" := by
  decide

/-- C10 (as the code has it): the JSON key declared for `UserId`, `WebsiteId`, `HookType`,
`EventType`, `CoreMetadata`, `ElementMetadata` and `Timestamp` is the snake-case name
`user_id`, `website_id`, `hook_type`, `event_type`, `core_metadata`, `element_metadata` and
`timestamp` respectively. -/
theorem jsonKey_snake_case :
    EventField.UserId.jsonKey = "user_id" ∧
    EventField.WebsiteId.jsonKey = "website_id" ∧
    EventField.HookType.jsonKey = "hook_type" ∧
    EventField.EventType.jsonKey = "event_type" ∧
    EventField.CoreMetadata.jsonKey = "core_metadata" ∧
    EventField.ElementMetadata.jsonKey = "element_metadata" ∧
    EventField.Timestamp.jsonKey = "timestamp" := by
  decide

end Hooklytics
